import Mathlib

/-!
# Verification of the population-dynamics RK4 application

Shallow embedding of `population_app.py` (classes `PopulationModels`,
`RK4Solver`, and the right-hand-side builder
`AnimatedPopulationGUI.create_model_functions`).

Modelling conventions:

* Python floats are modelled as exact rationals (`ℚ`).  Every claim treated
  here is about the shape of the computation (which expressions are formed,
  in which order, with which bindings), not about rounding, so the exact
  field is the faithful carrier.
* Python exceptions raised during expression evaluation are modelled with
  `Except PyError`.  The source never defines custom error classes, so the
  error type has exactly the built-in errors the relevant code can raise:
  `NameError` (unknown symbol during `eval`), `ZeroDivisionError`, and
  `SyntaxError`.
* `eval(eq, env)` on the arithmetic fragment actually used by the model
  equations (numbers, identifiers, `+ - * /`, unary minus, parentheses) is
  modelled by `pyEval`: a tokenizer and recursive-descent parser for that
  grammar followed by an evaluator over `ℚ`.  The `np` module binding is
  irrelevant (no registry equation references `np`) and is omitted from the
  environments.
* `str.replace(old, new)` (replace all non-overlapping occurrences, left to
  right, scanning continues after inserted text) is modelled by `pyReplace`.
* Python generators are modelled by the eager list of the samples they
  yield; a generator that raises mid-stream is modelled by the list of
  samples yielded before the exception paired with the exception
  (`Option PyError`).
* Python dicts are modelled by association lists whose order is the dict's
  insertion order (Python 3.7+ iteration order, which is what
  `parameters.items()` walks).
-/

set_option maxRecDepth 10000

/-- The Python built-in exceptions the embedded code can raise. -/
inductive PyError where
  | nameError (symbol : String)
  | zeroDivisionError
  | syntaxError
  deriving DecidableEq, Repr

/-- Arithmetic expression AST for the fragment of Python expressions the
model equations use. -/
inductive Expr where
  | num (q : ℚ)
  | var (s : String)
  | add (a b : Expr)
  | sub (a b : Expr)
  | mul (a b : Expr)
  | div (a b : Expr)
  | neg (a : Expr)
  deriving DecidableEq, Repr

/-- First-match lookup in an association list, i.e. lookup in the dict
passed as the `eval` environment (keys are distinct in every use). -/
def lookupEnv : List (String × ℚ) → String → Option ℚ
  | [], _ => none
  | (k, v) :: rest, s => if k = s then some v else lookupEnv rest s

/-- Evaluation of an expression under an environment, with Python's error
behaviour: an identifier missing from the environment raises `NameError`,
division by zero raises `ZeroDivisionError`. -/
def evalExpr (env : List (String × ℚ)) : Expr → Except PyError ℚ
  | .num q => .ok q
  | .var s =>
    match lookupEnv env s with
    | some v => .ok v
    | none => .error (.nameError s)
  | .add a b => do
    let x ← evalExpr env a
    let y ← evalExpr env b
    pure (x + y)
  | .sub a b => do
    let x ← evalExpr env a
    let y ← evalExpr env b
    pure (x - y)
  | .mul a b => do
    let x ← evalExpr env a
    let y ← evalExpr env b
    pure (x * y)
  | .div a b => do
    let x ← evalExpr env a
    let y ← evalExpr env b
    if y = 0 then .error .zeroDivisionError else pure (x / y)
  | .neg a => do
    let x ← evalExpr env a
    pure (-x)

instance {ε α : Type} [DecidableEq ε] [DecidableEq α] : DecidableEq (Except ε α) := fun a b =>
  match a, b with
  | .ok x, .ok y =>
    if h : x = y then .isTrue (by rw [h]) else .isFalse (by intro he; cases he; exact h rfl)
  | .ok _, .error _ => .isFalse (by intro h; cases h)
  | .error _, .ok _ => .isFalse (by intro h; cases h)
  | .error x, .error y =>
    if h : x = y then .isTrue (by rw [h]) else .isFalse (by intro he; cases he; exact h rfl)

/-- Tokens of the expression grammar. -/
inductive Tok where
  | num (q : ℚ)
  | ident (s : String)
  | lparen
  | rparen
  | plus
  | minus
  | star
  | slash
  deriving DecidableEq, Repr

/-- A character that can start a Python identifier. -/
def isIdentStart (c : Char) : Bool := c.isAlpha || c = '_'

/-- A character that can continue a Python identifier. -/
def isIdentChar (c : Char) : Bool := c.isAlphanum || c = '_'

/-- Numeric value of a digit string. -/
def digitsToNat (ds : List Char) : ℕ :=
  ds.foldl (fun acc c => 10 * acc + (c.toNat - '0'.toNat)) 0

/-- Fuel-indexed tokenizer; called with fuel equal to the input length,
which every branch respects because each step consumes at least one
character. -/
def tokenizeAux : ℕ → List Char → Option (List Tok)
  | _, [] => some []
  | 0, _ => none
  | fuel + 1, c :: cs =>
    if c = ' ' then tokenizeAux fuel cs
    else if isIdentStart c then
      let nm := c :: cs.takeWhile isIdentChar
      (tokenizeAux fuel (cs.dropWhile isIdentChar)).map (Tok.ident nm.asString :: ·)
    else if c.isDigit then
      let ip := c :: cs.takeWhile Char.isDigit
      let rest1 := cs.dropWhile Char.isDigit
      match rest1 with
      | '.' :: cs2 =>
        let fp := cs2.takeWhile Char.isDigit
        let rest2 := cs2.dropWhile Char.isDigit
        (tokenizeAux fuel rest2).map
          (Tok.num ((digitsToNat ip : ℚ) + (digitsToNat fp : ℚ) / 10 ^ fp.length) :: ·)
      | _ => (tokenizeAux fuel rest1).map (Tok.num (digitsToNat ip : ℚ) :: ·)
    else if c = '(' then (tokenizeAux fuel cs).map (Tok.lparen :: ·)
    else if c = ')' then (tokenizeAux fuel cs).map (Tok.rparen :: ·)
    else if c = '+' then (tokenizeAux fuel cs).map (Tok.plus :: ·)
    else if c = '-' then (tokenizeAux fuel cs).map (Tok.minus :: ·)
    else if c = '*' then (tokenizeAux fuel cs).map (Tok.star :: ·)
    else if c = '/' then (tokenizeAux fuel cs).map (Tok.slash :: ·)
    else none

/-- Tokenize a whole string. -/
def tokenize (s : String) : Option (List Tok) :=
  tokenizeAux s.toList.length s.toList

mutual

/-- Parse an additive expression (`term (('+'|'-') term)*`). -/
def parseE : ℕ → List Tok → Option (Expr × List Tok)
  | 0, _ => none
  | fuel + 1, ts =>
    match parseT fuel ts with
    | some (e, ts1) => parseELoop fuel e ts1
    | none => none

/-- Left-associative continuation of an additive expression. -/
def parseELoop : ℕ → Expr → List Tok → Option (Expr × List Tok)
  | 0, _, _ => none
  | fuel + 1, e, ts =>
    match ts with
    | .plus :: ts1 =>
      match parseT fuel ts1 with
      | some (e2, ts2) => parseELoop fuel (.add e e2) ts2
      | none => none
    | .minus :: ts1 =>
      match parseT fuel ts1 with
      | some (e2, ts2) => parseELoop fuel (.sub e e2) ts2
      | none => none
    | _ => some (e, ts)

/-- Parse a multiplicative expression (`factor (('*'|'/') factor)*`). -/
def parseT : ℕ → List Tok → Option (Expr × List Tok)
  | 0, _ => none
  | fuel + 1, ts =>
    match parseF fuel ts with
    | some (e, ts1) => parseTLoop fuel e ts1
    | none => none

/-- Left-associative continuation of a multiplicative expression. -/
def parseTLoop : ℕ → Expr → List Tok → Option (Expr × List Tok)
  | 0, _, _ => none
  | fuel + 1, e, ts =>
    match ts with
    | .star :: ts1 =>
      match parseF fuel ts1 with
      | some (e2, ts2) => parseTLoop fuel (.mul e e2) ts2
      | none => none
    | .slash :: ts1 =>
      match parseF fuel ts1 with
      | some (e2, ts2) => parseTLoop fuel (.div e e2) ts2
      | none => none
    | _ => some (e, ts)

/-- Parse an atom: number, identifier, unary minus, parenthesized
expression. -/
def parseF : ℕ → List Tok → Option (Expr × List Tok)
  | 0, _ => none
  | fuel + 1, ts =>
    match ts with
    | .num q :: ts1 => some (.num q, ts1)
    | .ident s :: ts1 => some (.var s, ts1)
    | .minus :: ts1 =>
      match parseF fuel ts1 with
      | some (e, ts2) => some (.neg e, ts2)
      | none => none
    | .lparen :: ts1 =>
      match parseE fuel ts1 with
      | some (e, .rparen :: ts2) => some (e, ts2)
      | _ => none
    | _ => none

end

/-- Parse a whole equation string into an AST (fuel is generous: the
parser spends at most a few fuel units per token). -/
def parseExprString (s : String) : Option Expr :=
  match tokenize s with
  | none => none
  | some ts =>
    match parseE (4 * ts.length + 4) ts with
    | some (e, []) => some e
    | _ => none

/-- The embedding of Python `eval(eq, env)` on the arithmetic fragment the
model equations use. -/
def pyEval (s : String) (env : List (String × ℚ)) : Except PyError ℚ :=
  match parseExprString s with
  | some e => evalExpr env e
  | none => .error .syntaxError

/-- `listStartsWith pat l` holds when `pat` is an initial segment of `l`. -/
def listStartsWith : List Char → List Char → Bool
  | [], _ => true
  | _ :: _, [] => false
  | a :: pat, b :: l => a == b && listStartsWith pat l

/-- Fuel-indexed core of `str.replace`: replace all non-overlapping
occurrences of `old` left to right, continuing after replaced text.
Called with fuel equal to the input length; each step consumes at least
one character when `old` is nonempty. -/
def replAux (old new : List Char) : ℕ → List Char → List Char
  | _, [] => []
  | 0, s => s
  | fuel + 1, c :: cs =>
    if listStartsWith old (c :: cs) then
      new ++ replAux old new fuel ((c :: cs).drop old.length)
    else
      c :: replAux old new fuel cs

/-- The embedding of Python `s.replace(old, new)` for nonempty `old` (the
only case the source exercises: parameter names are nonempty). -/
def pyReplace (s old new : String) : String :=
  match old.toList with
  | [] => s
  | _ :: _ => (replAux old.toList new.toList s.toList.length s.toList).asString

/-- All identifiers occurring in an equation string, in order of
occurrence (maximal runs of identifier characters starting with a letter
or underscore). -/
def identsAux : ℕ → List Char → List String
  | _, [] => []
  | 0, _ => []
  | fuel + 1, c :: cs =>
    if isIdentStart c then
      (c :: cs.takeWhile isIdentChar).asString :: identsAux fuel (cs.dropWhile isIdentChar)
    else
      identsAux fuel cs

/-- Identifiers referenced by an equation string. -/
def identsOf (s : String) : List String :=
  identsAux s.toList.length s.toList

/-- One entry of `PopulationModels.models`: the fields of the model dict
that the solver-facing code consumes (the purely descriptive fields —
names, descriptions, LaTeX strings, ranges — are display-only metadata and
are not embedded). -/
structure ModelDefinition where
  equations : List String
  parameters : List String
  param_defaults : List ℚ
  initial_conditions : List String
  ic_defaults : List ℚ
  vars : List String  -- the source dict key is "variables" (a reserved word in Lean)
  type : String
  deriving DecidableEq, Repr

/-- `models["logistic"]` from `PopulationModels.__init__`. -/
def logisticModel : ModelDefinition :=
  { equations := ["r*x*(1 - x/K)"]
    parameters := ["r", "K"]
    param_defaults := [0.5, 100]
    initial_conditions := ["x0"]
    ic_defaults := [10]
    vars := ["x"]
    type := "single" }

/-- `models["lotka_volterra"]` from `PopulationModels.__init__`. -/
def lotkaVolterraModel : ModelDefinition :=
  { equations := ["a*x - b*x*y", "c*x*y - d*y"]
    parameters := ["a", "b", "c", "d"]
    param_defaults := [1.0, 0.5, 0.3, 0.8]
    initial_conditions := ["x0", "y0"]
    ic_defaults := [10, 5]
    vars := ["x", "y"]
    type := "system" }

/-- `models["competition"]` from `PopulationModels.__init__`. -/
def competitionModel : ModelDefinition :=
  { equations := ["r1*x*(1 - (x + alpha*y)/K1)", "r2*y*(1 - (y + beta*x)/K2)"]
    parameters := ["r1", "r2", "K1", "K2", "alpha", "beta"]
    param_defaults := [1.0, 0.8, 100, 80, 0.5, 0.6]
    initial_conditions := ["x0", "y0"]
    ic_defaults := [20, 15]
    vars := ["x", "y"]
    type := "system" }

/-- `models["sir"]` from `PopulationModels.__init__`. -/
def sirModel : ModelDefinition :=
  { equations := ["-beta*S*I/N", "beta*S*I/N - gamma*I", "gamma*I"]
    parameters := ["beta", "gamma", "N"]
    param_defaults := [0.3, 0.1, 1000]
    initial_conditions := ["S0", "I0", "R0"]
    ic_defaults := [990, 10, 0]
    vars := ["S", "I", "R"]
    type := "system" }

/-- `models["metapopulation"]` from `PopulationModels.__init__`. -/
def metapopulationModel : ModelDefinition :=
  { equations := ["r1*x*(1 - x/K1) + m*(y - x)", "r2*y*(1 - y/K2) + m*(x - y)"]
    parameters := ["r1", "r2", "K1", "K2", "m"]
    param_defaults := [0.8, 0.6, 100, 80, 0.1]
    initial_conditions := ["x0", "y0"]
    ic_defaults := [50, 30]
    vars := ["x", "y"]
    type := "system" }

/-- The registry `PopulationModels.models`, in registration order. -/
def populationModels : List (String × ModelDefinition) :=
  [("logistic", logisticModel),
   ("lotka_volterra", lotkaVolterraModel),
   ("competition", competitionModel),
   ("sir", sirModel),
   ("metapopulation", metapopulationModel)]

/-- The substitution loop of `AnimatedPopulationGUI.create_model_functions`
(`for param, value in parameters.items(): eq_eval = eq_eval.replace(param,
str(value))`), applied to every equation of the model.  Parameter values
are carried as the strings `str(value)` produces, since that is what the
source splices into the equation text. -/
def buildEqStrings (model : ModelDefinition) (parameters : List (String × String)) :
    List String :=
  model.equations.map (fun eq_str =>
    parameters.foldl (fun eq_eval pv => pyReplace eq_eval pv.1 pv.2) eq_str)

/-- The closure `lambda t, x, eq=eq_eval: eval(eq, {"t": t, "x": x, "np":
np})` built for a `type == "single"` model. -/
def singleClosure (eq : String) (t x : ℚ) : Except PyError ℚ :=
  pyEval eq [("t", t), ("x", x)]

/-- The closures built for `type == "system"` models (`lambda t, x, y, eq=
eq_eval: eval(eq, ...)` and the 3-variable analogue), uniformly over the
state vector: the environment binds `t` and each declared variable name to
the corresponding positional argument. -/
def systemClosure (vars : List String) (eq : String) (t : ℚ) (args : List ℚ) :
    Except PyError ℚ :=
  pyEval eq (("t", t) :: vars.zip args)

example : pyReplace "r1*x" "r" "2.0" = "2.01*x" := by decide
example : identsOf "r1*x*(1 - (x + alpha*y)/K1)" = ["r1", "x", "x", "alpha", "y", "K1"] := by
  decide
example : pyEval "2.01*x" [("t", 0), ("x", 1)] = .ok (201/100) := by with_unfolding_all rfl
example : pyEval "r1*x" [("t", 0), ("x", 1), ("r", 2), ("r1", 3)] = .ok 3 := by
  with_unfolding_all rfl
example : pyEval "-0.3*S*I/0.0" [("t", 0), ("S", 990), ("I", 10), ("R", 0)] =
    .error .zeroDivisionError := by with_unfolding_all rfl
example : pyEval "0.5*x*(1 - x/K)" [("t", 0), ("x", 10)] = .error (.nameError "K") := by
  with_unfolding_all rfl

/-- The loop body of `RK4Solver.solve_single_ode_animated`: one classical
RK4 step of the scalar stepper (`x_curr` and `t_curr` are both updated
from the pre-step values; `x_curr` is updated first in the source but its
update only reads the old `t_curr`). -/
def rk4SingleAdvance (f : ℚ → ℚ → ℚ) (t x h : ℚ) : ℚ × ℚ :=
  let k1 := h * f t x
  let k2 := h * f (t + h / 2) (x + k1 / 2)
  let k3 := h * f (t + h / 2) (x + k2 / 2)
  let k4 := h * f (t + h) (x + k3)
  (t + h, x + (k1 + 2 * k2 + 2 * k3 + k4) / 6)

/-- The samples yielded inside the `for i in range(n_steps)` loop of
`solve_single_ode_animated`, starting from current state `(t, x)`. -/
def solveSingleGo (f : ℚ → ℚ → ℚ) (h : ℚ) : ℕ → ℚ → ℚ → List (ℚ × ℚ)
  | 0, _, _ => []
  | n + 1, t, x =>
    let p := rk4SingleAdvance f t x h
    p :: solveSingleGo f h n p.1 p.2

/-- `RK4Solver.solve_single_ode_animated`, as the list of samples the
generator yields: the initial `(t0, x0)` followed by one sample per loop
iteration.  `n_steps` is a Python `int`; `range(n_steps)` iterates
`max(n_steps, 0)` times, which is `Int.toNat`. -/
def solve_single_ode_animated (f : ℚ → ℚ → ℚ) (t0 x0 h : ℚ) (n_steps : ℤ) :
    List (ℚ × ℚ) :=
  (t0, x0) :: solveSingleGo f h n_steps.toNat t0 x0

/-- The indexed update loop `for i in range(n_vars): curr_vals[i] =
curr_vals[i] + (k1[i] + 2*k2[i] + 2*k3[i] + k4[i])/6` of
`solve_system_ode_animated`, for the equal-length lists the call sites
produce (one function per equation, one initial condition per variable). -/
def combineKs : List ℚ → List ℚ → List ℚ → List ℚ → List ℚ → List ℚ
  | v :: vs, a :: ta, b :: tb, c :: tc, d :: td =>
    (v + (a + 2 * b + 2 * c + d) / 6) :: combineKs vs ta tb tc td
  | _, _, _, _, _ => []

/-- The loop body of `RK4Solver.solve_system_ode_animated`: one RK4 step
of the coupled system.  Each `k`-list is computed for all component
functions from the same full intermediate state vector before the next
stage is formed, exactly as in the source. -/
def rk4SystemAdvance (functions : List (ℚ → List ℚ → ℚ)) (t : ℚ) (curr_vals : List ℚ)
    (h : ℚ) : ℚ × List ℚ :=
  let k1 := functions.map (fun f => h * f t curr_vals)
  let k2_vals := List.zipWith (fun v k => v + k / 2) curr_vals k1
  let k2 := functions.map (fun f => h * f (t + h / 2) k2_vals)
  let k3_vals := List.zipWith (fun v k => v + k / 2) curr_vals k2
  let k3 := functions.map (fun f => h * f (t + h / 2) k3_vals)
  let k4_vals := List.zipWith (fun v k => v + k) curr_vals k3
  let k4 := functions.map (fun f => h * f (t + h) k4_vals)
  (t + h, combineKs curr_vals k1 k2 k3 k4)

/-- The samples yielded inside the `for step in range(n_steps)` loop of
`solve_system_ode_animated`. -/
def solveSystemGo (functions : List (ℚ → List ℚ → ℚ)) (h : ℚ) :
    ℕ → ℚ → List ℚ → List (ℚ × List ℚ)
  | 0, _, _ => []
  | n + 1, t, vals =>
    let p := rk4SystemAdvance functions t vals h
    p :: solveSystemGo functions h n p.1 p.2

/-- `RK4Solver.solve_system_ode_animated`, as the list of samples the
generator yields (value semantics; the aliasing behaviour of the `.copy()`
calls is modelled separately by the heap-level embedding below). -/
def solve_system_ode_animated (functions : List (ℚ → List ℚ → ℚ)) (t0 : ℚ)
    (initial_conditions : List ℚ) (h : ℚ) (n_steps : ℤ) : List (ℚ × List ℚ) :=
  (t0, initial_conditions) :: solveSystemGo functions h n_steps.toNat t0 initial_conditions

/-- One scalar RK4 step when the right-hand side may raise: the first
raising evaluation aborts the step with that exception (Python evaluates
`k1`, `k2`, `k3`, `k4` in order). -/
def rk4SingleAdvanceE (f : ℚ → ℚ → Except PyError ℚ) (t x h : ℚ) :
    Except PyError (ℚ × ℚ) := do
  let v1 ← f t x
  let k1 := h * v1
  let v2 ← f (t + h / 2) (x + k1 / 2)
  let k2 := h * v2
  let v3 ← f (t + h / 2) (x + k2 / 2)
  let k3 := h * v3
  let v4 ← f (t + h) (x + k3)
  let k4 := h * v4
  pure (t + h, x + (k1 + 2 * k2 + 2 * k3 + k4) / 6)

/-- Loop of the scalar stepper with a fallible right-hand side: the pair
of samples yielded before the exception (if any) and the exception. -/
def solveSingleGoE (f : ℚ → ℚ → Except PyError ℚ) (h : ℚ) :
    ℕ → ℚ → ℚ → List (ℚ × ℚ) × Option PyError
  | 0, _, _ => ([], none)
  | n + 1, t, x =>
    match rk4SingleAdvanceE f t x h with
    | .error e => ([], some e)
    | .ok p =>
      let r := solveSingleGoE f h n p.1 p.2
      (p :: r.1, r.2)

/-- `solve_single_ode_animated` with a fallible right-hand side: the
generator yields `(t0, x0)` and then advances until done or until an
evaluation raises; the raised exception propagates to the consumer
unchanged. -/
def solve_single_ode_animatedE (f : ℚ → ℚ → Except PyError ℚ) (t0 x0 h : ℚ)
    (n_steps : ℤ) : List (ℚ × ℚ) × Option PyError :=
  let r := solveSingleGoE f h n_steps.toNat t0 x0
  ((t0, x0) :: r.1, r.2)

/-- One system RK4 step when the right-hand sides may raise: each stage's
list comprehension evaluates the component functions in order and the
first raising one aborts the step with that exception. -/
def rk4SystemAdvanceE (functions : List (ℚ → List ℚ → Except PyError ℚ)) (t : ℚ)
    (curr_vals : List ℚ) (h : ℚ) : Except PyError (ℚ × List ℚ) := do
  let v1 ← functions.mapM (fun f => f t curr_vals)
  let k1 := v1.map (fun v => h * v)
  let k2_vals := List.zipWith (fun v k => v + k / 2) curr_vals k1
  let v2 ← functions.mapM (fun f => f (t + h / 2) k2_vals)
  let k2 := v2.map (fun v => h * v)
  let k3_vals := List.zipWith (fun v k => v + k / 2) curr_vals k2
  let v3 ← functions.mapM (fun f => f (t + h / 2) k3_vals)
  let k3 := v3.map (fun v => h * v)
  let k4_vals := List.zipWith (fun v k => v + k) curr_vals k3
  let v4 ← functions.mapM (fun f => f (t + h) k4_vals)
  let k4 := v4.map (fun v => h * v)
  pure (t + h, combineKs curr_vals k1 k2 k3 k4)

/-- Loop of the system stepper with fallible right-hand sides. -/
def solveSystemGoE (functions : List (ℚ → List ℚ → Except PyError ℚ)) (h : ℚ) :
    ℕ → ℚ → List ℚ → List (ℚ × List ℚ) × Option PyError
  | 0, _, _ => ([], none)
  | n + 1, t, vals =>
    match rk4SystemAdvanceE functions t vals h with
    | .error e => ([], some e)
    | .ok p =>
      let r := solveSystemGoE functions h n p.1 p.2
      (p :: r.1, r.2)

/-- `solve_system_ode_animated` with fallible right-hand sides: samples
yielded before any exception, and the exception that escaped the
generator, if any. -/
def solve_system_ode_animatedE (functions : List (ℚ → List ℚ → Except PyError ℚ))
    (t0 : ℚ) (initial_conditions : List ℚ) (h : ℚ) (n_steps : ℤ) :
    List (ℚ × List ℚ) × Option PyError :=
  let r := solveSystemGoE functions h n_steps.toNat t0 initial_conditions
  ((t0, initial_conditions) :: r.1, r.2)

/-- Componentwise vector sum (truncating like `zip`). -/
def vecAdd (xs ys : List ℚ) : List ℚ := List.zipWith (· + ·) xs ys

/-- Scalar multiple of a vector. -/
def vecSMul (c : ℚ) (xs : List ℚ) : List ℚ := xs.map (fun x => c * x)

/-- The RK4 step exactly as the specification displays it, in vector
form: `k1 = h·f(t, x)`, `k2 = h·f(t + h/2, x + k1/2)`, `k3 = h·f(t + h/2,
x + k2/2)`, `k4 = h·f(t + h, x + k3)`, `x' = x + (k1 + 2k2 + 2k3 + k4)/6`,
`t' = t + h`, every stage evaluated for all component functions at the
same full intermediate state vector.  Written from the spec's words for
comparison against the source-derived `rk4SystemAdvance`. -/
def rk4StepSpec (fs : List (ℚ → List ℚ → ℚ)) (t : ℚ) (x : List ℚ) (h : ℚ) :
    ℚ × List ℚ :=
  let k1 := fs.map (fun f => h * f t x)
  let k2 := fs.map (fun f => h * f (t + h / 2) (vecAdd x (vecSMul (1 / 2) k1)))
  let k3 := fs.map (fun f => h * f (t + h / 2) (vecAdd x (vecSMul (1 / 2) k2)))
  let k4 := fs.map (fun f => h * f (t + h) (vecAdd x k3))
  (t + h,
    List.zipWith (fun xi ki => xi + ki / 6) x
      (vecAdd (vecAdd k1 (vecSMul 2 k2)) (vecAdd (vecSMul 2 k3) k4)))

/-! ## Heap-level embedding of the system generator

`solve_system_ode_animated` manipulates Python lists by reference: it
copies `initial_conditions` once at entry, mutates only that private copy
in place, and yields a fresh copy of it at every step.  To state the frame
properties (the caller's list is never mutated; previously yielded samples
are never mutated by later advances) we embed these four lines at the
level of an explicit heap of list cells. -/

/-- A heap of list cells; a cell is named by its index. -/
abbrev Heap : Type := List (List ℚ)

/-- Read a cell (out-of-range reads return `[]`; never exercised under the
stated hypotheses). -/
def readCell : Heap → ℕ → List ℚ
  | [], _ => []
  | v :: _, 0 => v
  | _ :: hp, n + 1 => readCell hp n

/-- Overwrite a cell in place. -/
def writeCell : Heap → ℕ → List ℚ → Heap
  | [], _, _ => []
  | _ :: hp, 0, v => v :: hp
  | w :: hp, n + 1, v => w :: writeCell hp n v

/-- Allocate a fresh cell holding `v` (`list.copy()` allocates); returns
the extended heap and the new cell's name. -/
def allocCell (hp : Heap) (v : List ℚ) : Heap × ℕ := (hp ++ [v], hp.length)

/-- The loop of `solve_system_ode_animated` at heap level: each iteration
computes the `k`-stages from the current contents of the private cell
`curr`, writes the updated state back into `curr` in place, then yields a
fresh copy of `curr`.  Returns the final heap and the yielded samples as
`(time, cell name)` pairs. -/
def solveSystemHeapGo (functions : List (ℚ → List ℚ → ℚ)) (h : ℚ) :
    ℕ → ℚ → ℕ → Heap → Heap × List (ℚ × ℕ)
  | 0, _, _, hp => (hp, [])
  | n + 1, t, curr, hp =>
    let p := rk4SystemAdvance functions t (readCell hp curr) h
    let hp1 := writeCell hp curr p.2
    let a := allocCell hp1 (readCell hp1 curr)
    let r := solveSystemHeapGo functions h n p.1 curr a.1
    (r.1, (p.1, a.2) :: r.2)

/-- `solve_system_ode_animated` at heap level: `curr_vals =
initial_conditions.copy()` allocates the private cell, the initial yield
allocates a copy of it, then the loop runs.  `icCell` names the caller's
`initial_conditions` list. -/
def solve_system_ode_animatedH (functions : List (ℚ → List ℚ → ℚ)) (t0 : ℚ)
    (icCell : ℕ) (h : ℚ) (n_steps : ℕ) (hp : Heap) : Heap × List (ℚ × ℕ) :=
  let a1 := allocCell hp (readCell hp icCell)
  let a2 := allocCell a1.1 (readCell a1.1 a1.2)
  let r := solveSystemHeapGo functions h n_steps t0 a1.2 a2.1
  (r.1, (t0, a2.2) :: r.2)

/-! ## Lemmas relating the source step to the spec's vector formulas -/

/-- The half-stage perturbation `x + k/2`, written as the source writes it
(`[curr_vals[i] + k[i]/2 ...]`), equals the spec's `x + (1/2)·k`. -/
theorem vecAdd_half (x k : List ℚ) :
    vecAdd x (vecSMul (1 / 2) k) = List.zipWith (fun v kk => v + kk / 2) x k := by
  induction x generalizing k with
  | nil => rfl
  | cons a xs ih =>
    cases k with
    | nil => rfl
    | cons b ks =>
      simp only [vecAdd, vecSMul, List.map_cons, List.zipWith_cons_cons] at ih ⊢
      congr 1
      · ring
      · exact ih ks

/-- The full-stage perturbation `x + k`. -/
theorem vecAdd_full (x k : List ℚ) :
    vecAdd x k = List.zipWith (fun v kk => v + kk) x k := rfl

/-- The source's indexed update loop equals the spec's vector combination
`x + (k1 + 2·k2 + 2·k3 + k4)/6`. -/
theorem combineKs_eq (x : List ℚ) :
    ∀ a b c d : List ℚ,
      combineKs x a b c d =
        List.zipWith (fun xi ki => xi + ki / 6) x
          (vecAdd (vecAdd a (vecSMul 2 b)) (vecAdd (vecSMul 2 c) d)) := by
  induction x with
  | nil => intro a b c d; rfl
  | cons v vs ih =>
    intro a b c d
    cases a with
    | nil => rfl
    | cons a1 ta =>
      cases b with
      | nil => rfl
      | cons b1 tb =>
        cases c with
        | nil => rfl
        | cons c1 tc =>
          cases d with
          | nil => rfl
          | cons d1 td =>
            simp only [combineKs, vecAdd, vecSMul, List.map_cons,
              List.zipWith_cons_cons]
            congr 1
            · ring
            · have h := ih ta tb tc td
              simpa only [vecAdd, vecSMul] using h

/-- C1: one advance of the system stepper computes `k1 = h·f(t, x)`,
`k2 = h·f(t + h/2, x + k1/2)`, `k3 = h·f(t + h/2, x + k2/2)`,
`k4 = h·f(t + h, x + k3)` and returns `x + (k1 + 2k2 + 2k3 + k4)/6` with
`t' = t + h`, where every stage is evaluated for every component function
at the same full intermediate state vector (first conjunct: the source
step equals the spec's vector-form RK4 step verbatim); and the scalar
stepper's advance is exactly the N = 1 specialization of this scheme
(second conjunct). -/
theorem rk4_advance_matches_spec_and_scalar_is_special_case :
    (∀ (fs : List (ℚ → List ℚ → ℚ)) (t h : ℚ) (x : List ℚ),
        rk4SystemAdvance fs t x h = rk4StepSpec fs t x h) ∧
    (∀ (f : ℚ → ℚ → ℚ) (t x h : ℚ),
        rk4SystemAdvance [fun s v => f s (v.headD 0)] t [x] h =
          ((rk4SingleAdvance f t x h).1, [(rk4SingleAdvance f t x h).2])) := by
  constructor
  · intro fs t h x
    simp only [rk4SystemAdvance, rk4StepSpec]
    rw [combineKs_eq]
    rw [← vecAdd_half]
    rw [← vecAdd_half]
    rw [← vecAdd_full]
  · intro f t x h
    simp only [rk4SystemAdvance, rk4SingleAdvance, combineKs, List.map_cons,
      List.map_nil, List.zipWith_cons_cons, List.zipWith_nil_right, List.headD]

/-- The loop yields exactly one sample per iteration. -/
theorem solveSingleGo_length (f : ℚ → ℚ → ℚ) (h : ℚ) :
    ∀ (n : ℕ) (t x : ℚ), (solveSingleGo f h n t x).length = n := by
  intro n
  induction n with
  | zero => intro t x; rfl
  | succ m ih =>
    intro t x
    simp only [solveSingleGo, List.length_cons, ih]

/-- The system loop yields exactly one sample per iteration. -/
theorem solveSystemGo_length (fs : List (ℚ → List ℚ → ℚ)) (h : ℚ) :
    ∀ (n : ℕ) (t : ℚ) (vals : List ℚ), (solveSystemGo fs h n t vals).length = n := by
  intro n
  induction n with
  | zero => intro t vals; rfl
  | succ m ih =>
    intro t vals
    simp only [solveSystemGo, List.length_cons, ih]

/-- C2: for every right-hand side, initial condition, step size and
`n_steps ≥ 0`, both generators yield the unmodified `(t0, x0)` as their
first sample followed by exactly `n_steps` advanced samples — `n_steps + 1`
samples in total; in particular `n_steps = 0` yields exactly the initial
sample, and `n_steps = 10` yields exactly 11 samples (the witness
instantiates `run(f, t0=0, x0=5, h=0.1, n_steps=10)`). -/
theorem run_yields_initial_then_n_steps (f : ℚ → ℚ → ℚ)
    (fs : List (ℚ → List ℚ → ℚ)) (t0 x0 h : ℚ) (xs0 : List ℚ) (n : ℤ)
    (hn : 0 ≤ n) :
    ((solve_single_ode_animated f t0 x0 h n).length = n.toNat + 1 ∧
      (solve_single_ode_animated f t0 x0 h n).head? = some (t0, x0)) ∧
    ((solve_system_ode_animated fs t0 xs0 h n).length = n.toNat + 1 ∧
      (solve_system_ode_animated fs t0 xs0 h n).head? = some (t0, xs0)) := by
  refine ⟨⟨?_, rfl⟩, ⟨?_, rfl⟩⟩
  · simp only [solve_single_ode_animated, List.length_cons, solveSingleGo_length]
  · simp only [solve_system_ode_animated, List.length_cons, solveSystemGo_length]

/-- Witness for C2: `run(f, t0=0, x0=5, h=0.1, n_steps=10)` yields exactly
11 samples and its first sample is exactly `(0, 5)`. -/
theorem run_yields_initial_then_n_steps_witness :
    (0 : ℤ) ≤ 10 ∧
    (solve_single_ode_animated (fun _ x => x) 0 5 (1 / 10) 10).length = 11 ∧
    (solve_single_ode_animated (fun _ x => x) 0 5 (1 / 10) 10).head? = some (0, 5) := by
  refine ⟨by decide, ?_, ?_⟩
  · exact (run_yields_initial_then_n_steps (fun _ x => x) [fun _ v => v.headD 0]
      0 5 (1 / 10) [5] 10 (by decide)).1.1
  · exact (run_yields_initial_then_n_steps (fun _ x => x) [fun _ v => v.headD 0]
      0 5 (1 / 10) [5] 10 (by decide)).1.2

/-- C8: the stepper is deterministic and stateless across invocations —
an advance is a pure function of its inputs, so two runs built from the
same inputs are the same sample sequence (first conjunct); and each run is
self-composable/resumable: the run of `n + 1` steps from `(t0, x0)` is
`(t0, x0)` followed by the independent run of `n` steps started at the
advanced state, for both the scalar and the system stepper (second and
third conjuncts) — each invocation restarts from its own initial state and
shares nothing with any other sequence. -/
theorem stepper_deterministic_and_composable :
    (∀ (f : ℚ → ℚ → ℚ) (t0 x0 h : ℚ) (n : ℤ),
        solve_single_ode_animated f t0 x0 h n = solve_single_ode_animated f t0 x0 h n) ∧
    (∀ (f : ℚ → ℚ → ℚ) (t0 x0 h : ℚ) (n : ℕ),
        solve_single_ode_animated f t0 x0 h ((n : ℤ) + 1) =
          (t0, x0) ::
            solve_single_ode_animated f (rk4SingleAdvance f t0 x0 h).1
              (rk4SingleAdvance f t0 x0 h).2 h (n : ℤ)) ∧
    (∀ (fs : List (ℚ → List ℚ → ℚ)) (t0 h : ℚ) (xs0 : List ℚ) (n : ℕ),
        solve_system_ode_animated fs t0 xs0 h ((n : ℤ) + 1) =
          (t0, xs0) ::
            solve_system_ode_animated fs (rk4SystemAdvance fs t0 xs0 h).1
              (rk4SystemAdvance fs t0 xs0 h).2 h (n : ℤ)) := by
  refine ⟨fun _ _ _ _ _ => rfl, ?_, ?_⟩
  · intro f t0 x0 h n
    have h1 : ((n : ℤ) + 1).toNat = n + 1 := by omega
    have h2 : ((n : ℤ)).toNat = n := by omega
    simp only [solve_single_ode_animated, h1, h2, solveSingleGo, Prod.mk.eta]
  · intro fs t0 h xs0 n
    have h1 : ((n : ℤ) + 1).toNat = n + 1 := by omega
    have h2 : ((n : ℤ)).toNat = n := by omega
    simp only [solve_system_ode_animated, h1, h2, solveSystemGo, Prod.mk.eta]

/-- Counterexample to C5 as stated: `n_steps = -1` does not fail — the
source has no `InvalidStepCountError` (no error classes at all), and
`range(-1)` is simply empty, so the generator silently yields the initial
sample. -/
theorem negative_step_count_counterexample :
    solve_single_ode_animated (fun _ x => x) 0 5 (1 / 10) (-1) = [(0, 5)] := rfl

/-- C5 amended: for `n_steps < 0` the run does not fail; it behaves like
`n_steps = 0` and yields exactly one sample, the unmodified initial
condition, for both steppers. -/
theorem negative_step_count_yields_only_initial (f : ℚ → ℚ → ℚ)
    (fs : List (ℚ → List ℚ → ℚ)) (t0 x0 h : ℚ) (xs0 : List ℚ) (n : ℤ)
    (hn : n < 0) :
    solve_single_ode_animated f t0 x0 h n = [(t0, x0)] ∧
    solve_system_ode_animated fs t0 xs0 h n = [(t0, xs0)] := by
  have h0 : n.toNat = 0 := by omega
  constructor
  · simp only [solve_single_ode_animated, h0, solveSingleGo]
  · simp only [solve_system_ode_animated, h0, solveSystemGo]

/-- Witness for the amended C5 at `n_steps = -3`. -/
theorem negative_step_count_yields_only_initial_witness :
    (-3 : ℤ) < 0 ∧
    solve_single_ode_animated (fun _ x => x) 0 5 (1 / 10) (-3) = [(0, 5)] ∧
    solve_system_ode_animated [fun _ v => v.headD 0] 0 [5] (1 / 10) (-3) = [(0, [5])] := by
  refine ⟨by decide, ?_, ?_⟩
  · exact (negative_step_count_yields_only_initial (fun _ x => x)
      [fun _ v => v.headD 0] 0 5 (1 / 10) [5] (-3) (by decide)).1
  · exact (negative_step_count_yields_only_initial (fun _ x => x)
      [fun _ v => v.headD 0] 0 5 (1 / 10) [5] (-3) (by decide)).2

/-- `create_model_functions` for `type == "system"` models: one closure
per equation, each evaluating its parameter-substituted equation string
with `t` and the declared variables bound positionally. -/
def create_model_functions (model : ModelDefinition)
    (parameters : List (String × String)) : List (ℚ → List ℚ → Except PyError ℚ) :=
  (buildEqStrings model parameters).map (systemClosure model.vars)

/-- `create_model_functions` for `type == "single"` models. -/
def create_model_functions_single (model : ModelDefinition)
    (parameters : List (String × String)) : List (ℚ → ℚ → Except PyError ℚ) :=
  (buildEqStrings model parameters).map singleClosure

/-- The environment that binds the competition model's variables and its
declared parameters to their default values — the reference
("mathematical") reading of the competition equations, against which the
built closures are compared. -/
def compDefaultEnv (t x y : ℚ) : List (String × ℚ) :=
  [("t", t), ("x", x), ("y", y), ("r1", 1), ("r2", 4/5), ("K1", 100), ("K2", 80),
   ("alpha", 1/2), ("beta", 3/5)]

/-- Counterexample to C3 as stated: the builder does NOT bind parameters
through a name-to-value environment — it textually rewrites the equation
string (`eq_eval.replace(param, str(value))` in `create_model_functions`).
For the competition model and a parameter mapping that contains `"r"`
ahead of `"r1"`, the replacement of `"r"` corrupts the occurrence of
`"r1"` (producing the string `"2.01*x*..."`), and the built function then
evaluates to `19899/10000` at `(t, x, y) = (0, 1, 0)` whereas the equation
with each parameter bound to its own value evaluates to `99/100`. -/
theorem textual_substitution_counterexample :
    buildEqStrings competitionModel
        [("r", "2.0"), ("r1", "1.0"), ("r2", "0.8"), ("K1", "100.0"), ("K2", "80.0"),
         ("alpha", "0.5"), ("beta", "0.6")] =
      ["2.01*x*(1 - (x + 0.5*y)/100.0)", "2.02*y*(1 - (y + 0.6*x)/80.0)"] ∧
    systemClosure competitionModel.vars "2.01*x*(1 - (x + 0.5*y)/100.0)" 0 [1, 0] =
      .ok (19899 / 10000) ∧
    pyEval "r1*x*(1 - (x + alpha*y)/K1)"
        [("t", 0), ("x", 1), ("y", 0), ("r", 2), ("r1", 1), ("r2", 4/5), ("K1", 100),
         ("K2", 80), ("alpha", 1/2), ("beta", 3/5)] = .ok (99 / 100) ∧
    (19899 / 10000 : ℚ) ≠ 99 / 100 := by
  refine ⟨by decide, by with_unfolding_all rfl, by with_unfolding_all rfl, by norm_num⟩

/-- C3 amended: the builder binds parameters by sequential textual
substitution of `str(value)` for each name into the equation string, in
mapping order — not through an environment.  For the registry's models
with their declared parameter names and default values no substitution
corrupts another name, and the built functions evaluate each equation to
its mathematical value (shown here for the logistic and competition
models, for every time and state); but a mapping in which one name is a
prefix of a later one (e.g. `"r"` before `"r1"`) yields a function that
computes a wrong value. -/
theorem textual_substitution_amended :
    (buildEqStrings logisticModel [("r", "0.5"), ("K", "100.0")] =
        ["0.5*x*(1 - x/100.0)"] ∧
      ∀ t x : ℚ,
        singleClosure "0.5*x*(1 - x/100.0)" t x =
          pyEval "r*x*(1 - x/K)" [("t", t), ("x", x), ("r", 1/2), ("K", 100)]) ∧
    (buildEqStrings competitionModel
        [("r1", "1.0"), ("r2", "0.8"), ("K1", "100.0"), ("K2", "80.0"),
         ("alpha", "0.5"), ("beta", "0.6")] =
        ["1.0*x*(1 - (x + 0.5*y)/100.0)", "0.8*y*(1 - (y + 0.6*x)/80.0)"] ∧
      ∀ t x y : ℚ,
        systemClosure competitionModel.vars "1.0*x*(1 - (x + 0.5*y)/100.0)" t [x, y] =
            pyEval "r1*x*(1 - (x + alpha*y)/K1)" (compDefaultEnv t x y) ∧
        systemClosure competitionModel.vars "0.8*y*(1 - (y + 0.6*x)/80.0)" t [x, y] =
            pyEval "r2*y*(1 - (y + beta*x)/K2)" (compDefaultEnv t x y)) ∧
    systemClosure competitionModel.vars "2.01*x*(1 - (x + 0.5*y)/100.0)" 0 [1, 0] ≠
      pyEval "r1*x*(1 - (x + alpha*y)/K1)"
        [("t", 0), ("x", 1), ("y", 0), ("r", 2), ("r1", 1), ("r2", 4/5), ("K1", 100),
         ("K2", 80), ("alpha", 1/2), ("beta", 3/5)] := by
  refine ⟨⟨by decide, fun t x => by with_unfolding_all rfl⟩,
    ⟨by decide, fun t x y => ⟨by with_unfolding_all rfl, by with_unfolding_all rfl⟩⟩, ?_⟩
  have h1 : systemClosure competitionModel.vars "2.01*x*(1 - (x + 0.5*y)/100.0)" 0 [1, 0] =
      .ok (19899 / 10000) := by with_unfolding_all rfl
  have h2 : pyEval "r1*x*(1 - (x + alpha*y)/K1)"
      [("t", 0), ("x", 1), ("y", 0), ("r", 2), ("r1", 1), ("r2", 4/5), ("K1", 100),
       ("K2", 80), ("alpha", 1/2), ("beta", 3/5)] = .ok (99 / 100) := by
    with_unfolding_all rfl
  intro hc
  rw [h1, h2] at hc
  have := Except.ok.inj hc
  norm_num at this

/-- Counterexample to C4 as stated: `create_model_functions` performs no
parameter validation and the source defines no `MissingParameterError`.
Building the logistic model with `K` omitted succeeds (it returns the
equation with `K` left in place), an integration is started, and the
initial sample IS produced; the failure only appears as a `NameError`
during the first step's evaluation. -/
theorem missing_parameter_counterexample :
    buildEqStrings logisticModel [("r", "0.5")] = ["0.5*x*(1 - x/K)"] ∧
    solve_single_ode_animatedE (singleClosure "0.5*x*(1 - x/K)") 0 10 (1/20) 3 =
      ([(0, 10)], some (.nameError "K")) := by
  exact ⟨by decide, by with_unfolding_all rfl⟩

/-- C4 amended: building with a missing declared parameter does not fail —
`create_model_functions` returns one function per equation with the
missing name left unsubstituted; the failure surfaces as Python's builtin
`NameError` for that name at the first right-hand-side evaluation of the
first step, after the initial sample has already been yielded. -/
theorem missing_parameter_no_build_failure (t0 x0 h : ℚ) (n : ℕ) :
    buildEqStrings logisticModel [("r", "0.5")] = ["0.5*x*(1 - x/K)"] ∧
    (create_model_functions_single logisticModel [("r", "0.5")]).length = 1 ∧
    solve_single_ode_animatedE (singleClosure "0.5*x*(1 - x/K)") t0 x0 h ((n : ℤ) + 1) =
      ([(t0, x0)], some (.nameError "K")) := by
  refine ⟨by decide, by decide, ?_⟩
  have h1 : ((n : ℤ) + 1).toNat = n + 1 := by omega
  have hadv : rk4SingleAdvanceE (singleClosure "0.5*x*(1 - x/K)") t0 x0 h =
      .error (.nameError "K") := by with_unfolding_all rfl
  simp only [solve_single_ode_animatedE, h1, solveSingleGoE, hadv]

/-- Counterexample to C6 as stated: the source defines no
`UndefinedSymbolError`; evaluating a built function whose equation
references a symbol absent from the evaluation environment (here the raw
logistic equation produced by building with an empty parameter mapping,
whose `r` is unbound because parameters are substituted textually, never
bound as symbols) raises the generic builtin `NameError` — not a dedicated
error, though also not a silent zero. -/
theorem undefined_symbol_counterexample :
    buildEqStrings logisticModel [] = ["r*x*(1 - x/K)"] ∧
    singleClosure "r*x*(1 - x/K)" 0 10 = .error (.nameError "r") ∧
    singleClosure "r*x*(1 - x/K)" 0 10 ≠ .ok 0 := by
  refine ⟨by decide, by with_unfolding_all rfl, ?_⟩
  have he : singleClosure "r*x*(1 - x/K)" 0 10 = .error (.nameError "r") := by
    with_unfolding_all rfl
  rw [he]
  exact fun hfalse => Except.noConfusion hfalse

/-- C6 amended: evaluation binds `t` and the declared state variables
(and `np`) as symbols — parameters are not bound, having been textually
substituted — and referencing a symbol absent from that environment raises
Python's builtin `NameError` identifying the symbol; it never silently
evaluates the symbol to zero (nor to any other value). -/
theorem undefined_symbol_raises_nameError (t x : ℚ) :
    singleClosure "r*x*(1 - x/K)" t x = .error (.nameError "r") ∧
    ∀ q : ℚ, singleClosure "r*x*(1 - x/K)" t x ≠ .ok q := by
  have he : singleClosure "r*x*(1 - x/K)" t x = .error (.nameError "r") := by
    with_unfolding_all rfl
  refine ⟨he, fun q hq => ?_⟩
  rw [he] at hq
  exact Except.noConfusion hq

/-- Counterexample to C7 as stated: an arithmetic error during a
right-hand-side evaluation (division by zero, here from binding the SIR
parameter `N` to `0.0`) escapes the generator as the raw builtin
`ZeroDivisionError` — the source defines no `EvaluationError` and attaches
no step index or expression context; the samples already yielded (the
initial one) are all the consumer gets. -/
theorem evaluation_error_counterexample :
    buildEqStrings sirModel [("beta", "0.3"), ("gamma", "0.1"), ("N", "0.0")] =
      ["-0.3*S*I/0.0", "0.3*S*I/0.0 - 0.1*I", "0.1*I"] ∧
    solve_system_ode_animatedE
        (create_model_functions sirModel [("beta", "0.3"), ("gamma", "0.1"), ("N", "0.0")])
        0 [990, 10, 0] (1/20) 5 =
      ([(0, [990, 10, 0])], some .zeroDivisionError) := by
  exact ⟨by decide, by with_unfolding_all rfl⟩

/-- C7 amended: an arithmetic evaluation error in a right-hand side
surfaces as the raw Python exception (`ZeroDivisionError`) propagating out
of the generator at the step where it occurs, leaving exactly the
previously yielded samples; it is not wrapped in any `EvaluationError`
carrying a step index (no such class exists — the GUI's `animate_step`
merely catches the raw exception and shows its text). -/
theorem evaluation_error_propagates_raw (t0 h S I R : ℚ) (n : ℕ) :
    solve_system_ode_animatedE
        (create_model_functions sirModel [("beta", "0.3"), ("gamma", "0.1"), ("N", "0.0")])
        t0 [S, I, R] h ((n : ℤ) + 1) =
      ([(t0, [S, I, R])], some .zeroDivisionError) := by
  have h1 : ((n : ℤ) + 1).toNat = n + 1 := by omega
  have hadv : rk4SystemAdvanceE
      (create_model_functions sirModel [("beta", "0.3"), ("gamma", "0.1"), ("N", "0.0")])
      t0 [S, I, R] h = .error .zeroDivisionError := by with_unfolding_all rfl
  simp only [solve_system_ode_animatedE, h1, solveSystemGoE, hadv]

/-- C9: every model definition in the registry satisfies the structural
invariant `len(variables) == len(equations) == len(initial_conditions)`,
and every identifier referenced in an equation string that is not a state
variable and not `t` is one of that model's declared parameters. -/
theorem registry_structural_invariants :
    (populationModels.all fun m =>
        (m.2.vars.length == m.2.equations.length) &&
        (m.2.vars.length == m.2.initial_conditions.length) &&
        m.2.equations.all fun eq =>
          (identsOf eq).all fun s =>
            m.2.parameters.contains s || m.2.vars.contains s || s == "t") = true := by
  decide

/-! ## Heap lemmas for the frame properties -/

/-- Appending a fresh cell does not change existing cells. -/
theorem readCell_append_lt :
    ∀ (hp : Heap) (v : List ℚ) (c : ℕ), c < hp.length →
      readCell (hp ++ [v]) c = readCell hp c := by
  intro hp
  induction hp with
  | nil => intro v c hc; exact absurd hc (by simp)
  | cons w rest ih =>
    intro v c hc
    cases c with
    | zero => rfl
    | succ m =>
      have : m < rest.length := by simpa using hc
      exact ih v m this

/-- The freshly appended cell holds the appended value. -/
theorem readCell_append_self : ∀ (hp : Heap) (v : List ℚ),
    readCell (hp ++ [v]) hp.length = v := by
  intro hp
  induction hp with
  | nil => intro v; rfl
  | cons w rest ih => intro v; exact ih v

/-- Writing a cell stores the written value. -/
theorem readCell_write_self :
    ∀ (hp : Heap) (c : ℕ) (v : List ℚ), c < hp.length →
      readCell (writeCell hp c v) c = v := by
  intro hp
  induction hp with
  | nil => intro c v hc; exact absurd hc (by simp)
  | cons w rest ih =>
    intro c v hc
    cases c with
    | zero => rfl
    | succ m =>
      have : m < rest.length := by simpa using hc
      exact ih m v this

/-- Writing a cell leaves every other cell unchanged. -/
theorem readCell_write_ne :
    ∀ (hp : Heap) (c : ℕ) (v : List ℚ) (c' : ℕ), c' ≠ c →
      readCell (writeCell hp c v) c' = readCell hp c' := by
  intro hp
  induction hp with
  | nil => intro c v c' _; rfl
  | cons w rest ih =>
    intro c v c' hne
    cases c with
    | zero =>
      cases c' with
      | zero => exact absurd rfl hne
      | succ m => rfl
    | succ k =>
      cases c' with
      | zero => rfl
      | succ m => exact ih k v m (fun he => hne (by rw [he]))

/-- In-place writes preserve the heap's size. -/
theorem writeCell_length : ∀ (hp : Heap) (c : ℕ) (v : List ℚ),
    (writeCell hp c v).length = hp.length := by
  intro hp
  induction hp with
  | nil => intro c v; rfl
  | cons w rest ih =>
    intro c v
    cases c with
    | zero => rfl
    | succ m => simp only [writeCell, List.length_cons, ih m v]

/-- Unfolding of one heap-level loop iteration. -/
theorem solveSystemHeapGo_succ (fs : List (ℚ → List ℚ → ℚ)) (h : ℚ) (m : ℕ) (t : ℚ)
    (curr : ℕ) (hp : Heap) :
    solveSystemHeapGo fs h (m + 1) t curr hp =
      ((solveSystemHeapGo fs h m (rk4SystemAdvance fs t (readCell hp curr) h).1 curr
          (writeCell hp curr (rk4SystemAdvance fs t (readCell hp curr) h).2 ++
            [readCell (writeCell hp curr (rk4SystemAdvance fs t (readCell hp curr) h).2)
              curr])).1,
        ((rk4SystemAdvance fs t (readCell hp curr) h).1,
            (writeCell hp curr (rk4SystemAdvance fs t (readCell hp curr) h).2).length) ::
          (solveSystemHeapGo fs h m (rk4SystemAdvance fs t (readCell hp curr) h).1 curr
            (writeCell hp curr (rk4SystemAdvance fs t (readCell hp curr) h).2 ++
              [readCell (writeCell hp curr (rk4SystemAdvance fs t (readCell hp curr) h).2)
                curr])).2) := rfl

/-- Frame property of the heap-level loop: it mutates only its private
cell `curr`; every pre-existing cell other than `curr` keeps its content
in the final heap, and the cells it yields, read in the final heap, hold
exactly the pure loop's samples (so no later iteration disturbs an
earlier yield). -/
theorem solveSystemHeapGo_spec (fs : List (ℚ → List ℚ → ℚ)) (h : ℚ) :
    ∀ (n : ℕ) (t : ℚ) (curr : ℕ) (hp : Heap), curr < hp.length →
      (∀ c, c < hp.length → c ≠ curr →
          readCell (solveSystemHeapGo fs h n t curr hp).1 c = readCell hp c) ∧
      ((solveSystemHeapGo fs h n t curr hp).2.map
          (fun s => (s.1, readCell (solveSystemHeapGo fs h n t curr hp).1 s.2)) =
        solveSystemGo fs h n t (readCell hp curr)) := by
  intro n
  induction n with
  | zero => intro t curr hp _; exact ⟨fun c _ _ => rfl, rfl⟩
  | succ m ih =>
    intro t curr hp hcurr
    rw [solveSystemHeapGo_succ]
    set p := rk4SystemAdvance fs t (readCell hp curr) h with hpdef
    set hp1 := writeCell hp curr p.2 with hp1def
    set hp2 := hp1 ++ [readCell hp1 curr] with hp2def
    have hlen1 : hp1.length = hp.length := writeCell_length hp curr p.2
    have hread1 : readCell hp1 curr = p.2 := readCell_write_self hp curr p.2 hcurr
    have hlen2 : hp2.length = hp.length + 1 := by
      rw [hp2def, List.length_append, hlen1]; rfl
    have hcurr2 : curr < hp2.length := by omega
    obtain ⟨ihpres, ihmap⟩ := ih p.1 curr hp2 hcurr2
    have hreadhp2curr : readCell hp2 curr = p.2 := by
      rw [hp2def, readCell_append_lt hp1 _ curr (by omega), hread1]
    constructor
    · intro c hc hne
      have hc2 : c < hp2.length := by omega
      rw [ihpres c hc2 hne]
      rw [hp2def, readCell_append_lt hp1 _ c (by omega), hp1def,
        readCell_write_ne hp curr p.2 c hne]
    · simp only [List.map_cons]
      rw [show solveSystemGo fs h (m + 1) t (readCell hp curr) =
            p :: solveSystemGo fs h m p.1 p.2 from rfl]
      congr 1
      · have hylt : hp1.length < hp2.length := by omega
        have hyne : hp1.length ≠ curr := by omega
        rw [ihpres hp1.length hylt hyne, hp2def, readCell_append_self hp1 _, hread1]
      · rw [ihmap, hreadhp2curr]

/-- Unfolding of the two entry allocations of the heap-level solver. -/
theorem solve_system_ode_animatedH_eq (fs : List (ℚ → List ℚ → ℚ)) (t0 : ℚ)
    (icCell : ℕ) (h : ℚ) (n : ℕ) (hp : Heap) :
    solve_system_ode_animatedH fs t0 icCell h n hp =
      ((solveSystemHeapGo fs h n t0 hp.length
          ((hp ++ [readCell hp icCell]) ++
            [readCell (hp ++ [readCell hp icCell]) hp.length])).1,
        (t0, (hp ++ [readCell hp icCell]).length) ::
          (solveSystemHeapGo fs h n t0 hp.length
            ((hp ++ [readCell hp icCell]) ++
              [readCell (hp ++ [readCell hp icCell]) hp.length])).2) := rfl

/-- C10: the system stepper shares no mutable state with its consumer.
After a run of any length, the caller's `initial_conditions` cell is
unchanged (the generator only mutates its private copy), and every yielded
sample cell still holds, in the final heap, exactly the sample value of
the pure run — each yield is a fresh copy that no later advance ever
mutates. -/
theorem system_solver_frame (fs : List (ℚ → List ℚ → ℚ)) (t0 h : ℚ) (n : ℕ)
    (hp : Heap) (icCell : ℕ) (hic : icCell < hp.length) :
    readCell (solve_system_ode_animatedH fs t0 icCell h n hp).1 icCell =
      readCell hp icCell ∧
    (solve_system_ode_animatedH fs t0 icCell h n hp).2.map
        (fun s => (s.1, readCell (solve_system_ode_animatedH fs t0 icCell h n hp).1 s.2)) =
      solve_system_ode_animated fs t0 (readCell hp icCell) h (n : ℤ) := by
  rw [solve_system_ode_animatedH_eq]
  set v0 := readCell hp icCell with hv0
  set hpa := hp ++ [v0] with hpadef
  have hreadA : readCell hpa hp.length = v0 := readCell_append_self hp v0
  set hpb := hpa ++ [readCell hpa hp.length] with hpbdef
  have hlena : hpa.length = hp.length + 1 := by rw [hpadef, List.length_append]; rfl
  have hlenb : hpb.length = hp.length + 2 := by rw [hpbdef, List.length_append, hlena]; rfl
  have hcurrb : hp.length < hpb.length := by omega
  obtain ⟨hpres, hmap⟩ := solveSystemHeapGo_spec fs h n t0 hp.length hpb hcurrb
  have hreadB : readCell hpb hp.length = v0 := by
    rw [hpbdef, readCell_append_lt hpa _ hp.length (by omega), hreadA]
  constructor
  · rw [hpres icCell (by omega) (by omega)]
    rw [hpbdef, readCell_append_lt hpa _ icCell (by omega), hpadef,
      readCell_append_lt hp _ icCell hic]
  · simp only [List.map_cons]
    have heq : solve_system_ode_animated fs t0 v0 h (n : ℤ) =
        (t0, v0) :: solveSystemGo fs h n t0 v0 := by
      simp only [solve_system_ode_animated, Int.toNat_natCast]
    rw [heq]
    congr 1
    · have h1 : hpa.length < hpb.length := by omega
      have h2 : hpa.length ≠ hp.length := by omega
      rw [hpres hpa.length h1 h2, hpbdef, readCell_append_self hpa _, hreadA]
    · rw [hmap, hreadB]

/-- Witness for C10 on a concrete heap: one cell holding `[1, 2]`, one
step of a concrete two-variable system. -/
theorem system_solver_frame_witness :
    0 < ([[1, 2]] : Heap).length ∧
    (readCell (solve_system_ode_animatedH [fun _ _ => 6, fun _ _ => 12] 0 0 1 1 [[1, 2]]).1 0 =
        readCell [[1, 2]] 0 ∧
      (solve_system_ode_animatedH [fun _ _ => 6, fun _ _ => 12] 0 0 1 1 [[1, 2]]).2.map
          (fun s =>
            (s.1,
              readCell (solve_system_ode_animatedH [fun _ _ => 6, fun _ _ => 12] 0 0 1 1
                [[1, 2]]).1 s.2)) =
        solve_system_ode_animated [fun _ _ => 6, fun _ _ => 12] 0
          (readCell [[1, 2]] 0) 1 ((1 : ℕ) : ℤ)) := by
  exact ⟨by decide,
    system_solver_frame [fun _ _ => 6, fun _ _ => 12] 0 1 1 [[1, 2]] 0 (by decide)⟩
